import Mathlib

/-!
Verification development for `scripts/plotting/cam_taylor_diagram.py` of the
ADF repository.  The file shallowly embeds the statistics engine, the
derived-variable helpers and the orchestration loop of that module, and proves
(or refutes) the specification claims about them.

Modelling conventions:
* machine floats are idealised as `ℝ` (as `ℚ` where every operation is
  rational, so that witnesses can be checked by `decide`);
* a grid cell holding the missing-value sentinel (NaN) is `none`;
* xarray weighted reductions (`DataArray.weighted(w).mean/std`), which by
  default skip missing values, are modelled explicitly below;
* file-system access and external loaders are abstracted as function
  parameters, never stubbed to constants.
-/

namespace CamTaylorDiagram

/-! ## Season table (source lines 84–88) -/

/-- The `seasons` dictionary of `cam_taylor_diagram`:
`{"ANN": np.arange(1,13,1), "DJF": [12,1,2], "JJA": [6,7,8], "MAM": [3,4,5], "SON": [9,10,11]}`. -/
def seasons : List (String × List ℕ) :=
  [("ANN", (List.range 12).map (fun n => n + 1)),
   ("DJF", [12, 1, 2]),
   ("JJA", [6, 7, 8]),
   ("MAM", [3, 4, 5]),
   ("SON", [9, 10, 11])]

/-! ## `get_prect` (source lines 181–201)

The globbed file lists (already sorted, as in the source) and the dataset
loaders are parameters: `openOne f v` models `xr.open_dataset(f)[v]` and
`openMulti fs v` models `xr.open_mfdataset(fs)[v].load()`. -/

/-- Error outcomes of `get_prect`: `ioError` models the raised `IOError`,
`notImplemented` models the raised `NotImplementedError`. -/
inductive PrectErr where
  | ioError
  | notImplemented
deriving DecidableEq

/-- Shallow embedding of `get_prect`.  `filsT`, `filsC`, `filsL` are the sorted
glob results for the `PRECT`, `PRECC` and `PRECL` patterns.  The source first
checks `len(fils) == 0`; in that branch it raises `IOError` when either
component list is empty, loads and sums the single `PRECC` file with
`fils2[0]` when `len(fils1) == 1`, and raises `NotImplementedError`
otherwise; with one `PRECT` match it loads that file, with several it
concatenates them. -/
def get_prect {F α : Type} [Add α] (openOne : F → String → α)
    (openMulti : List F → String → α)
    (filsT filsC filsL : List F) : Except PrectErr α :=
  match filsT with
  | [] =>
    match filsC, filsL with
    | [], _ => .error .ioError
    | _ :: _, [] => .error .ioError
    | [f1], f2 :: _ => .ok (openOne f1 "PRECC" + openOne f2 "PRECL")
    | _ :: _ :: _, _ :: _ => .error .notImplemented
  | [f] => .ok (openOne f "PRECT")
  | fs => .ok (openMulti fs "PRECT")

/-- Concrete single-file loader used by the C2 witnesses: the loaded field is
the file's label itself. -/
def prect_open_one : ℕ → String → ℤ := fun f _ => (f : ℤ)

/-- Concrete multi-file loader used by the C2 witnesses. -/
def prect_open_multi : List ℕ → String → ℤ := fun fs _ => ((fs.sum : ℕ) : ℤ)

/-! ## Derived-variable registry (source lines 298–309) -/

/-- Tags for the seven computation procedures registered in `get_derive_func`. -/
inductive DeriveTag where
  | tropicalLandPrecip
  | tropicalOceanPrecip
  | uAtPlev
  | virh
  | vit
  | landt2m
  | eqpactaux
deriving DecidableEq

/-- The `funcs` dictionary of `get_derive_func`, as an association list. -/
def derive_registry : List (String × DeriveTag) :=
  [("TropicalLandPrecip", .tropicalLandPrecip),
   ("TropicalOceanPrecip", .tropicalOceanPrecip),
   ("U300", .uAtPlev),
   ("ColumnRelativeHumidity", .virh),
   ("ColumnTemperature", .vit),
   ("Land2mTemperature", .landt2m),
   ("EquatorialPacificStress", .eqpactaux)]

/-- Shallow embedding of `get_derive_func`: an unknown key raises
`ValueError(f"We do not have a method for variable: {fld}.")`. -/
def get_derive_func (fld : String) : Except String DeriveTag :=
  match derive_registry.lookup fld with
  | some f => Except.ok f
  | none => Except.error ("We do not have a method for variable: " ++ fld ++ ".")

/-- `startsWithSeq pat s` holds when `pat` is an initial segment of `s`. -/
def startsWithSeq : List Char → List Char → Bool
  | [], _ => true
  | _ :: _, [] => false
  | a :: as, b :: bs => a = b && startsWithSeq as bs

/-- `containsSeq pat s` holds when `pat` occurs contiguously inside `s`. -/
def containsSeq (pat : List Char) : List Char → Bool
  | [] => pat.isEmpty
  | b :: rest => startsWithSeq pat (b :: rest) || containsSeq pat rest

/-- A message "lists the registry's valid keys" when every registered key
occurs verbatim inside it. -/
def lists_registry_keys (msg : String) : Prop :=
  ∀ k ∈ derive_registry.map Prod.fst, containsSeq k.toList msg.toList = true

/-! ## Bias digitisation and marker tables (source lines 416–438) -/

/-- Model of `np.digitize(x, bins)` for a strictly increasing `bins` list with
the default `right=False`: the index of the bin containing `x`, i.e. the
number of bin edges that are `≤ x`. -/
def digitize (x : ℚ) (bins : List ℚ) : ℕ :=
  (bins.filter (fun b => decide (b ≤ x))).length

/-- The fixed threshold table `[-20, -10, -5, -1, 1, 5, 10, 20]` used on the
`bias` column in `plot_taylor_data`. -/
def bias_thresholds : List ℚ := [-20, -10, -5, -1, 1, 5, 10, 20]

/-- Marker shapes: `"v"` (downward triangle), `"o"` (circle), `"^"` (upward
triangle). -/
inductive TaylorMarker where
  | down
  | circle
  | up
deriving DecidableEq

/-- `marker_list = ["v", "v", "v", "v", "o", "^", "^", "^", "^"]`. -/
def marker_list : List TaylorMarker :=
  [.down, .down, .down, .down, .circle, .up, .up, .up, .up]

/-- `marker_size = [24, 16, 8, 4, 4, 4, 8, 16, 24]`. -/
def marker_size : List ℕ := [24, 16, 8, 4, 4, 4, 8, 16, 24]

/-! ## `vertical_average` (source lines 138–149)

One spatial column is modelled: `fld` is the list of values over the `lev`
coordinate, which is taken ascending in position (as in CAM climatology
files), so `pres.sel(lev=maxlev)` is the last entry of the per-column pressure
list and `pres.sel(lev=minlev)` the first. -/

/-- Modelled from the spec: `pres_from_hybrid` is imported from
`plotting_functions`, a repository file that is not among the sources here;
spec §3 gives the formula `pressure = hyam*P0 + hybm*PS`. -/
def pres_from_hybrid (ps : ℚ) (acoef bcoef : List ℚ) (p0 : ℚ) : List ℚ :=
  (acoef.zip bcoef).map (fun ab => ab.1 * p0 + ab.2 * ps)

/-- Model of `np.trapz(y, x)`: the trapezoidal rule
`Σ (y[k] + y[k+1]) * (x[k+1] - x[k]) / 2` over consecutive samples. -/
def trapz : List ℚ → List ℚ → ℚ
  | y1 :: y2 :: ys, x1 :: x2 :: xs =>
    (y1 + y2) * (x2 - x1) / 2 + trapz (y2 :: ys) (x2 :: xs)
  | _, _ => 0

/-- Shallow embedding of `vertical_average` for one column.
`dp_integrated = 0.5 * (pres.sel(lev=maxlev)**2 - pres.sel(lev=minlev)**2)` and
`fld_integrated = np.trapz(fld * pres, x=pres, axis=levaxis)`. -/
def vertical_average (fld : List ℚ) (ps : ℚ) (acoef bcoef : List ℚ) (p0 : ℚ) : ℚ :=
  let pres := pres_from_hybrid ps acoef bcoef p0
  let dp_integrated := ((pres.getLast?.getD 0) ^ 2 - (pres.head?.getD 0) ^ 2) / 2
  let fld_integrated := trapz (List.zipWith (fun a b => a * b) fld pres) pres
  fld_integrated / dp_integrated

/-! ## Weighted reductions (xarray semantics)

`x.weighted(w).mean()` in xarray computes, with the default `skipna`,
`dot(x.fillna(0), w) / dot(notnull(x), w)`: missing cells contribute zero to
the numerator and their weight is dropped from the denominator.  Grid cells
range over a `Fintype` index `ι`; a missing cell is `none`. -/

noncomputable section

variable {ι : Type} [Fintype ι]

/-- Replace a missing cell by `0`, as xarray's `fillna(0)` does inside
weighted reductions. -/
def fillZero (x : ι → Option ℝ) (i : ι) : ℝ := (x i).getD 0

/-- The weight actually entering a weighted reduction of `x`: zero wherever
`x` is missing (xarray computes `sum_of_weights` from `x.notnull()`). -/
def maskW (x : ι → Option ℝ) (w : ι → ℝ) (i : ι) : ℝ :=
  if (x i).isSome = true then w i else 0

/-- The set of non-missing cells of `x`. -/
def valid (x : ι → Option ℝ) : Finset ι :=
  Finset.univ.filter (fun i => (x i).isSome = true)

/-- Numerator of an xarray weighted mean: `dot(x.fillna(0), w)`. -/
def wsum (x : ι → Option ℝ) (w : ι → ℝ) : ℝ := ∑ i, w i * fillZero x i

/-- Denominator of an xarray weighted mean: `sum_of_weights`. -/
def sumWeights (x : ι → Option ℝ) (w : ι → ℝ) : ℝ := ∑ i, maskW x w i

/-- Model of `x.weighted(w).mean()`. -/
def wmean (x : ι → Option ℝ) (w : ι → ℝ) : ℝ := wsum x w / sumWeights x w

/-- The spec's comparison object: the same weighted mean computed only over
the non-missing cells. -/
def wmeanValid (x : ι → Option ℝ) (w : ι → ℝ) : ℝ :=
  (∑ i ∈ valid x, w i * fillZero x i) / (∑ i ∈ valid x, w i)

/-- xarray arithmetic propagates missing values: subtracting a scalar. -/
def subConst (x : ι → Option ℝ) (c : ℝ) (i : ι) : Option ℝ :=
  (x i).map (fun a => a - c)

/-- Pointwise product of two fields; a cell is missing when either operand
is missing (NaN propagation). -/
def mulField (x y : ι → Option ℝ) (i : ι) : Option ℝ :=
  (x i).bind (fun a => (y i).map (fun b => a * b))

/-! ## `weighted_correlation` and `taylor_stats_single` (source lines 343–377) -/

/-- Shallow embedding of `weighted_correlation` (source lines 343–352). -/
def weighted_correlation (x y : ι → Option ℝ) (weights : ι → ℝ) : ℝ :=
  let mean_x := wmean x weights
  let mean_y := wmean y weights
  let dev_x := subConst x mean_x
  let dev_y := subConst y mean_y
  let cov_xy := wmean (mulField dev_x dev_y) weights
  let cov_xx := wmean (mulField dev_x dev_x) weights
  let cov_yy := wmean (mulField dev_y dev_y) weights
  cov_xy / Real.sqrt (cov_xx * cov_yy)

/-- Model of `x.weighted(w).var()`: the weighted mean of the squared
deviations from the weighted mean. -/
def wvar (x : ι → Option ℝ) (w : ι → ℝ) : ℝ :=
  wmean (mulField (subConst x (wmean x w)) (subConst x (wmean x w))) w

/-- Model of `x.weighted(w).std()`. -/
def wstd (x : ι → Option ℝ) (w : ι → ℝ) : ℝ := Real.sqrt (wvar x w)

/-- The body of `taylor_stats_single` after the weight vector has been
formed: `(correlation, a_sigma / b_sigma, 100 * ((mean_case - mean_ref) /
mean_ref))`. -/
def taylor_stats_core (casedata refdata : ι → Option ℝ) (wgt : ι → ℝ) :
    ℝ × ℝ × ℝ :=
  let correlation := weighted_correlation casedata refdata wgt
  let a_sigma := wstd casedata wgt
  let b_sigma := wstd refdata wgt
  let mean_case := wmean casedata wgt
  let mean_ref := wmean refdata wgt
  (correlation, a_sigma / b_sigma, 100 * ((mean_case - mean_ref) / mean_ref))

/-- `np.radians`: degrees to radians. -/
def radians (d : ℝ) : ℝ := d * (Real.pi / 180)

/-- Shallow embedding of `taylor_stats_single` (source lines 355–377) on an
`nlat × nlon` grid with latitudes `lat`.  With `w` the weight vector is
`np.cos(np.radians(lat))` broadcast along longitude, otherwise
`np.ones(len(lat))`. -/
def taylor_stats_single {nlat nlon : ℕ}
    (casedata refdata : Fin nlat × Fin nlon → Option ℝ)
    (lat : Fin nlat → ℝ) (w : Bool) : ℝ × ℝ × ℝ :=
  taylor_stats_core casedata refdata
    (fun p => if w then Real.cos (radians (lat p.1)) else 1)

/-- Follows the spec's words (§4.4): `weighted_covariance(x, y)` is the
weighted mean of the product of deviations from the weighted means. -/
def spec_weighted_covariance (x y : ι → Option ℝ) (w : ι → ℝ) : ℝ :=
  wmean (mulField (subConst x (wmean x w)) (subConst y (wmean y w))) w

/-- Follows the spec's words (§4.4): `weighted_variance(x)` is the weighted
covariance of `x` with itself. -/
def spec_weighted_variance (x : ι → Option ℝ) (w : ι → ℝ) : ℝ :=
  spec_weighted_covariance x x w

/-! ## Orchestration loop (source lines 100–114)

For each season `s`, variable `v` and case: `base_x = _retrieve(...)`;
`case_x = _retrieve(...)`; `case_x = case_x.sel(time=seasons[s]).mean(dim='time')`;
`taylor_stats_single(case_x, base_x)`.  The reference field keeps its monthly
`time` axis, so the statistics are evaluated with xarray broadcasting between
a 2-D case field and a 3-D reference field. -/

/-- Model of `field.sel(time=months).mean(dim='time')` with the default
`skipna`: the time coordinate holds calendar months `1..12`. -/
def timeMean {σ : Type} (months : List ℕ) (f : ℕ → σ → Option ℝ) (p : σ) :
    Option ℝ :=
  let vs := months.filterMap (fun m => f m p)
  if vs.length = 0 then none else some (vs.sum / (vs.length : ℝ))

/-- `taylor_stats_single` applied—exactly as the orchestration loop does—to a
2-D (lat, lon) case field and a 3-D (time, lat, lon) reference field.  Each
xarray reduction runs over the dimensions of its own operand, with the 1-D
`cos(lat)` weight broadcast; products of a 2-D and a 3-D field broadcast to
3-D. -/
def taylor_stats_broadcast {nlat nlon : ℕ}
    (casedata : Fin nlat × Fin nlon → Option ℝ)
    (refdata : Fin 12 × (Fin nlat × Fin nlon) → Option ℝ)
    (lat : Fin nlat → ℝ) : ℝ × ℝ × ℝ :=
  let wgt2 : Fin nlat × Fin nlon → ℝ := fun p => Real.cos (radians (lat p.1))
  let wgt3 : Fin 12 × (Fin nlat × Fin nlon) → ℝ := fun tp => wgt2 tp.2
  let mean_x := wmean casedata wgt2
  let mean_y := wmean refdata wgt3
  let dev_x := subConst casedata mean_x
  let dev_y := subConst refdata mean_y
  let cov_xy := wmean (mulField (fun tp => dev_x tp.2) dev_y) wgt3
  let cov_xx := wmean (mulField dev_x dev_x) wgt2
  let cov_yy := wmean (mulField dev_y dev_y) wgt3
  let correlation := cov_xy / Real.sqrt (cov_xx * cov_yy)
  let a_sigma := wstd casedata wgt2
  let b_sigma := wstd refdata wgt3
  (correlation, a_sigma / b_sigma, 100 * ((mean_x - mean_y) / mean_y))

/-- What the orchestration loop computes for one (season, variable, case):
the case field is reduced to the season's temporal mean, the reference field
is passed as retrieved (months `1..12` along its time axis). -/
def orchestrated_stats {nlat nlon : ℕ} (months : List ℕ)
    (caseField baseField : ℕ → Fin nlat × Fin nlon → Option ℝ)
    (lat : Fin nlat → ℝ) : ℝ × ℝ × ℝ :=
  taylor_stats_broadcast (timeMean months caseField)
    (fun tp => baseField (tp.1.val + 1) tp.2) lat

/-- Follows the claim's words (spec §4.6): both the case field and the
reference field are reduced to the season's temporal mean before the
statistic triple is computed. -/
def spec_season_stats {nlat nlon : ℕ} (months : List ℕ)
    (caseField baseField : ℕ → Fin nlat × Fin nlon → Option ℝ)
    (lat : Fin nlat → ℝ) : ℝ × ℝ × ℝ :=
  taylor_stats_single (timeMean months caseField) (timeMean months baseField)
    lat true

/-! ## `get_var_at_plev` (source lines 230–242)

`_retrieve(adf, variable, casename, location, return_dataset=True)` is
abstracted as `resolve : String → String → γ` (variable name ↦ dataset, a
bundle of named fields); `gc.interp_hybrid_to_pressure` and
`squeeze(drop=True).load()` are abstract parameters. -/

/-- Shallow embedding of `get_var_at_plev`: the source interpolates
`dset['U']` with `dset['PS']`, `dset['hyam']`, `dset['hybm']` at
`np.array([100. * plev])` and squeezes the degenerate level dimension. -/
def get_var_at_plev {γ : Type} (resolve : String → String → γ)
    (interp_hybrid_to_pressure : γ → γ → γ → γ → ℝ → γ)
    (squeeze_load : γ → γ) (varname : String) (plev : ℝ) : γ :=
  let dset := resolve varname
  squeeze_load (interp_hybrid_to_pressure (dset "U") (dset "PS")
    (dset "hyam") (dset "hybm") (100 * plev))

/-- Shallow embedding of `get_u_at_plev`. -/
def get_u_at_plev {γ : Type} (resolve : String → String → γ)
    (interp_hybrid_to_pressure : γ → γ → γ → γ → ℝ → γ)
    (squeeze_load : γ → γ) : γ :=
  get_var_at_plev resolve interp_hybrid_to_pressure squeeze_load "U" 300

/-! ## Concrete inputs used by counterexamples and witnesses -/

/-- One-point grid latitude `0°` (weight `cos 0 = 1`). -/
def lat₁ : Fin 1 → ℝ := fun _ => 0

/-- Case field for the C1 failing input: constantly `1` in every month. -/
def caseF : ℕ → Fin 1 × Fin 1 → Option ℝ := fun _ _ => some 1

/-- Reference field for the C1 failing input: the value in month `m` is `m`
itself, so its seasonal means differ from its annual mean. -/
def baseF : ℕ → Fin 1 × Fin 1 → Option ℝ := fun m _ => some (m : ℝ)

/-- C5 witness field with a missing cell. -/
def xW : Fin 2 → Option ℝ := fun i => if i.val = 0 then none else some 1

/-- C5 witness field without missing cells. -/
def yW : Fin 2 → Option ℝ := fun _ => some 2

/-- C5 witness weight vector. -/
def wW : Fin 2 → ℝ := fun _ => 1

/-- C9 witness field: non-constant with values 0 and 2. -/
def x9 : Fin 2 → Option ℝ := fun i => if i.val = 0 then some 0 else some 2

/-- C9 witness weight vector. -/
def w9 : Fin 2 → ℝ := fun _ => 1

/-- C10 witness case field. -/
def x10 : Fin 1 → Option ℝ := fun _ => some 1

/-- C10 witness reference field. -/
def y10 : Fin 1 → Option ℝ := fun _ => some 2

/-- C10 witness weight vector. -/
def w10 : Fin 1 → ℝ := fun _ => 1

end

/-! ## Helper lemmas -/

/-- An association-list lookup misses exactly when the key is not among the
stored keys. -/
theorem lookup_eq_none_of_not_mem {β : Type} (l : List (String × β)) (a : String)
    (h : a ∉ l.map Prod.fst) : l.lookup a = none := by
  induction l with
  | nil => rfl
  | cons p t ih =>
    simp only [List.map_cons, List.mem_cons, not_or] at h
    have hne : (a == p.1) = false := by
      simp only [beq_eq_false_iff_ne, ne_eq]
      exact h.1
    simp [List.lookup, hne, ih h.2]

/-- An xarray weighted mean equals the weighted mean taken over the
non-missing cells only. -/
theorem wmean_eq_wmeanValid {ι : Type} [Fintype ι] (z : ι → Option ℝ)
    (w : ι → ℝ) : wmean z w = wmeanValid z w := by
  unfold wmean wmeanValid wsum sumWeights valid
  congr 1
  · refine (Finset.sum_filter_of_ne ?_).symm
    intro i _ hne
    by_contra hns
    have hz : z i = none := Option.not_isSome_iff_eq_none.mp (by simpa using hns)
    exact hne (by simp [fillZero, hz])
  · rw [Finset.sum_filter]
    exact Finset.sum_congr rfl (fun i _ => rfl)

/-- An xarray weighted mean equals an ordinary weighted mean whose weight
vector has been zeroed at the missing cells. -/
theorem wmean_eq_masked {ι : Type} [Fintype ι] (z : ι → Option ℝ) (w : ι → ℝ) :
    wmean z w = (∑ i, maskW z w i * fillZero z i) / (∑ i, maskW z w i) := by
  unfold wmean wsum sumWeights
  congr 1
  apply Finset.sum_congr rfl
  intro i _
  cases hz : z i with
  | none => simp [maskW, fillZero, hz]
  | some a => simp [maskW, fillZero, hz]

/-- Rescaling the weight vector rescales the masked weights. -/
theorem maskW_smul {ι : Type} (x : ι → Option ℝ) (w : ι → ℝ) (c : ℝ) (i : ι) :
    maskW x (fun j => c * w j) i = c * maskW x w i := by
  unfold maskW
  by_cases h : (x i).isSome = true
  · simp [h]
  · simp [h]

/-- Rescaling the weight vector rescales the weighted sum. -/
theorem wsum_smul {ι : Type} [Fintype ι] (x : ι → Option ℝ) (w : ι → ℝ)
    (c : ℝ) : wsum x (fun j => c * w j) = c * wsum x w := by
  unfold wsum
  rw [Finset.mul_sum]
  exact Finset.sum_congr rfl (fun i _ => by ring)

/-- Rescaling the weight vector rescales the sum of weights. -/
theorem sumWeights_smul {ι : Type} [Fintype ι] (x : ι → Option ℝ) (w : ι → ℝ)
    (c : ℝ) : sumWeights x (fun j => c * w j) = c * sumWeights x w := by
  unfold sumWeights
  rw [Finset.mul_sum]
  exact Finset.sum_congr rfl (fun i _ => maskW_smul x w c i)

/-- A weighted mean is invariant under nonzero rescaling of the weights. -/
theorem wmean_smul {ι : Type} [Fintype ι] (x : ι → Option ℝ) (w : ι → ℝ)
    {c : ℝ} (hc : c ≠ 0) : wmean x (fun j => c * w j) = wmean x w := by
  unfold wmean
  rw [wsum_smul, sumWeights_smul, mul_div_mul_left _ _ hc]

/-- Squared-deviation field at a non-missing cell. -/
theorem sqdev_some {ι : Type} {x : ι → Option ℝ} {μ : ℝ} {i : ι} {a : ℝ}
    (hx : x i = some a) :
    mulField (subConst x μ) (subConst x μ) i = some ((a - μ) * (a - μ)) := by
  simp [mulField, subConst, hx]

/-- Squared-deviation field at a missing cell. -/
theorem sqdev_none {ι : Type} {x : ι → Option ℝ} {μ : ℝ} {i : ι}
    (hx : x i = none) :
    mulField (subConst x μ) (subConst x μ) i = none := by
  simp [mulField, subConst, hx]

/-- With strictly positive weights, the weighted variance of a field taking
two different (non-missing) values is strictly positive. -/
theorem wvar_pos {ι : Type} [Fintype ι] (x : ι → Option ℝ) (w : ι → ℝ)
    (hw : ∀ i, 0 < w i)
    (h : ∃ i j a b, x i = some a ∧ x j = some b ∧ a ≠ b) :
    0 < wvar x w := by
  obtain ⟨i, j, a, b, hxi, hxj, hab⟩ := h
  have main : ∀ μ : ℝ,
      0 < wmean (mulField (subConst x μ) (subConst x μ)) w := by
    intro μ
    obtain ⟨k, cval, hk, hkμ⟩ : ∃ k cval, x k = some cval ∧ cval ≠ μ := by
      by_cases haμ : a = μ
      · refine ⟨j, b, hxj, ?_⟩
        intro hbμ
        exact hab (haμ.trans hbμ.symm)
      · exact ⟨i, a, hxi, haμ⟩
    unfold wmean wsum sumWeights
    apply div_pos
    · apply Finset.sum_pos'
      · intro m _
        cases hm : x m with
        | none => simp [fillZero, sqdev_none hm]
        | some v =>
          have hv : fillZero (mulField (subConst x μ) (subConst x μ)) m =
              (v - μ) * (v - μ) := by
            simp [fillZero, sqdev_some hm]
          rw [hv]
          exact mul_nonneg (hw m).le (mul_self_nonneg _)
      · refine ⟨k, Finset.mem_univ k, ?_⟩
        have hv : fillZero (mulField (subConst x μ) (subConst x μ)) k =
            (cval - μ) * (cval - μ) := by
          simp [fillZero, sqdev_some hk]
        rw [hv]
        exact mul_pos (hw k) (mul_self_pos.mpr (sub_ne_zero_of_ne hkμ))
    · apply Finset.sum_pos'
      · intro m _
        by_cases hm : ((mulField (subConst x μ) (subConst x μ)) m).isSome = true
        · simpa [maskW, hm] using (hw m).le
        · simp [maskW, hm]
      · refine ⟨k, Finset.mem_univ k, ?_⟩
        have hs : ((mulField (subConst x μ) (subConst x μ)) k).isSome = true := by
          rw [sqdev_some hk]
          rfl
        simpa [maskW, hs] using hw k
  exact main (wmean x w)

/-! ## C5: missing values are excluded from weighted reductions -/

/-- C5: for fields containing missing cells, the weighted mean, variance and
covariance used by the Taylor statistics equal the same weighted reductions
restricted to the non-missing cells — equivalently, the reductions with the
weight zeroed at each missing cell. -/
theorem C5_missing_excluded {ι : Type} [Fintype ι] (x y : ι → Option ℝ)
    (w : ι → ℝ)
    (_hmiss : (∃ i, x i = none) ∨ (∃ j, y j = none)) :
    wmean x w = wmeanValid x w ∧
    wmean y w = wmeanValid y w ∧
    wvar x w = wmeanValid
      (mulField (subConst x (wmean x w)) (subConst x (wmean x w))) w ∧
    wmean (mulField (subConst x (wmean x w)) (subConst y (wmean y w))) w =
      wmeanValid
        (mulField (subConst x (wmean x w)) (subConst y (wmean y w))) w ∧
    wmean x w = (∑ i, maskW x w i * fillZero x i) / (∑ i, maskW x w i) :=
  ⟨wmean_eq_wmeanValid x w, wmean_eq_wmeanValid y w,
   wmean_eq_wmeanValid _ w, wmean_eq_wmeanValid _ w, wmean_eq_masked x w⟩

/-- C5 witness: a two-cell field whose first cell is missing. -/
theorem C5_witness :
    ((∃ i, xW i = none) ∨ (∃ j, yW j = none)) ∧
    (wmean xW wW = wmeanValid xW wW ∧
     wmean yW wW = wmeanValid yW wW ∧
     wvar xW wW = wmeanValid
       (mulField (subConst xW (wmean xW wW)) (subConst xW (wmean xW wW))) wW ∧
     wmean (mulField (subConst xW (wmean xW wW))
         (subConst yW (wmean yW wW))) wW =
       wmeanValid (mulField (subConst xW (wmean xW wW))
         (subConst yW (wmean yW wW))) wW ∧
     wmean xW wW =
       (∑ i, maskW xW wW i * fillZero xW i) / (∑ i, maskW xW wW i)) :=
  ⟨Or.inl ⟨0, rfl⟩, C5_missing_excluded xW yW wW (Or.inl ⟨0, rfl⟩)⟩

/-! ## C6: weight vector and correlation formula -/

/-- C6: `taylor_stats_single` uses the weight `cos(radians(lat))` per
latitude row when `w` is true and the uniform weight 1 when `w` is false,
and its first component is exactly
`weighted_covariance(case, ref) / sqrt(weighted_variance(case) *
weighted_variance(ref))`, with no clamping to `[-1, 1]`. -/
theorem C6_correlation_formula {nlat nlon : ℕ}
    (casedata refdata : Fin nlat × Fin nlon → Option ℝ)
    (lat : Fin nlat → ℝ) :
    ((taylor_stats_single casedata refdata lat true).1 =
      spec_weighted_covariance casedata refdata
          (fun p => Real.cos (radians (lat p.1))) /
        Real.sqrt (spec_weighted_variance casedata
            (fun p => Real.cos (radians (lat p.1))) *
          spec_weighted_variance refdata
            (fun p => Real.cos (radians (lat p.1))))) ∧
    ((taylor_stats_single casedata refdata lat false).1 =
      spec_weighted_covariance casedata refdata (fun _ => 1) /
        Real.sqrt (spec_weighted_variance casedata (fun _ => (1 : ℝ)) *
          spec_weighted_variance refdata (fun _ => 1))) := by
  constructor
  · simp [taylor_stats_single, taylor_stats_core, weighted_correlation,
      spec_weighted_covariance, spec_weighted_variance]
  · simp [taylor_stats_single, taylor_stats_core, weighted_correlation,
      spec_weighted_covariance, spec_weighted_variance]

/-! ## C9: self-comparison -/

/-- C9: comparing a non-constant field against itself, with any strictly
positive weight vector, yields the statistic triple
`(correlation, ratio, bias) = (1, 1, 0)`. -/
theorem C9_self_comparison {ι : Type} [Fintype ι] (x : ι → Option ℝ)
    (w : ι → ℝ) (hw : ∀ i, 0 < w i)
    (hx : ∃ i j a b, x i = some a ∧ x j = some b ∧ a ≠ b) :
    taylor_stats_core x x w = (1, 1, 0) := by
  have hv : 0 < wvar x w := wvar_pos x w hw hx
  have h1 : weighted_correlation x x w = 1 := by
    have e : weighted_correlation x x w =
        wvar x w / Real.sqrt (wvar x w * wvar x w) := rfl
    rw [e, Real.sqrt_mul_self hv.le, div_self hv.ne']
  have h2 : wstd x w / wstd x w = 1 := by
    have hne : wstd x w ≠ 0 := by
      unfold wstd
      exact (Real.sqrt_pos.mpr hv).ne'
    exact div_self hne
  show (weighted_correlation x x w, wstd x w / wstd x w,
      100 * ((wmean x w - wmean x w) / wmean x w)) = (1, 1, 0)
  rw [h1, h2, sub_self, zero_div, mul_zero]

/-- C9 witness: the two-cell field with values 0 and 2 under unit weights. -/
theorem C9_witness :
    (∀ i : Fin 2, 0 < w9 i) ∧ taylor_stats_core x9 x9 w9 = (1, 1, 0) :=
  ⟨fun _ => one_pos, C9_self_comparison x9 w9 (fun _ => one_pos)
    ⟨0, 1, 0, 2, rfl, rfl, by norm_num⟩⟩

/-! ## C10: invariance under weight rescaling -/

/-- C10: the statistic triple is unchanged when the weight vector is
rescaled by any positive scalar — weights need not be normalised. -/
theorem C10_weight_rescaling {ι : Type} [Fintype ι] (x y : ι → Option ℝ)
    (w : ι → ℝ) (c : ℝ) (hc : 0 < c) :
    taylor_stats_core x y (fun i => c * w i) = taylor_stats_core x y w := by
  have key : ∀ z : ι → Option ℝ, wmean z (fun i => c * w i) = wmean z w :=
    fun z => wmean_smul z w (ne_of_gt hc)
  simp only [taylor_stats_core, weighted_correlation, wstd, wvar, key]

/-- C10 witness: rescaling unit weights by 2 on a one-cell grid. -/
theorem C10_witness :
    (0 : ℝ) < 2 ∧
    taylor_stats_core x10 y10 (fun i => 2 * w10 i) =
      taylor_stats_core x10 y10 w10 :=
  ⟨two_pos, C10_weight_rescaling x10 y10 w10 2 two_pos⟩

/-! ## C8: bias digitisation and marker tables -/

/-- C8: the bias bin is `digitize(bias, [-20,-10,-5,-1,1,5,10,20])` with nine
bins `0..8`; a bias exactly at a threshold falls into the bin at-or-above it;
the representative biases `{-25,-15,-7,-2,0,2,7,15,25}` land in bins
`{0,…,8}`; and the markers are downward triangles of sizes 24,16,8,4 for bins
0–3, a circle of size 4 for bin 4 and upward triangles of sizes 4,8,16,24 for
bins 5–8. -/
theorem C8_bias_bins :
    (digitize (-25) bias_thresholds = 0 ∧ digitize (-15) bias_thresholds = 1 ∧
     digitize (-7) bias_thresholds = 2 ∧ digitize (-2) bias_thresholds = 3 ∧
     digitize 0 bias_thresholds = 4 ∧ digitize 2 bias_thresholds = 5 ∧
     digitize 7 bias_thresholds = 6 ∧ digitize 15 bias_thresholds = 7 ∧
     digitize 25 bias_thresholds = 8) ∧
    (digitize (-20) bias_thresholds = 1 ∧ digitize (-10) bias_thresholds = 2 ∧
     digitize (-5) bias_thresholds = 3 ∧ digitize (-1) bias_thresholds = 4 ∧
     digitize 1 bias_thresholds = 5 ∧ digitize 5 bias_thresholds = 6 ∧
     digitize 10 bias_thresholds = 7 ∧ digitize 20 bias_thresholds = 8) ∧
    (∀ x : ℚ, digitize x bias_thresholds ≤ 8) ∧
    (marker_list.length = 9 ∧ marker_size.length = 9) ∧
    (marker_list.getD 0 .circle = .down ∧ marker_size.getD 0 0 = 24 ∧
     marker_list.getD 1 .circle = .down ∧ marker_size.getD 1 0 = 16 ∧
     marker_list.getD 2 .circle = .down ∧ marker_size.getD 2 0 = 8 ∧
     marker_list.getD 3 .circle = .down ∧ marker_size.getD 3 0 = 4 ∧
     marker_list.getD 4 .down = .circle ∧ marker_size.getD 4 0 = 4 ∧
     marker_list.getD 5 .circle = .up ∧ marker_size.getD 5 0 = 4 ∧
     marker_list.getD 6 .circle = .up ∧ marker_size.getD 6 0 = 8 ∧
     marker_list.getD 7 .circle = .up ∧ marker_size.getD 7 0 = 16 ∧
     marker_list.getD 8 .circle = .up ∧ marker_size.getD 8 0 = 24) := by
  refine ⟨by decide, by decide, fun x => ?_, by decide, by decide⟩
  exact le_of_le_of_eq (List.length_filter_le _ _) rfl

/-! ## C2: `get_prect` with multiple component files -/

/-- C2 counterexample: with no `PRECT` file, exactly one `PRECC` file and two
`PRECL` files, `get_prect` does not fail — it returns the sum of the single
`PRECC` field and the first `PRECL` field (`10 + 20` with the labelling
loader), refuting the claim that it raises `NotImplementedError` whenever
more than one file matches for either component. -/
theorem C2_counterexample :
    get_prect prect_open_one prect_open_multi [] [10] [20, 21] =
      Except.ok 30 := by
  rfl

/-- C2 amended: `get_prect` raises `NotImplementedError` exactly when no
`PRECT` file matches, at least one `PRECL` file matches and more than one
`PRECC` file matches; with exactly one `PRECC` match it returns
`PRECC + PRECL` using the first (sorted) `PRECL` file no matter how many
`PRECL` files match. -/
theorem C2_amended_thm {F α : Type} [Add α] (openOne : F → String → α)
    (openMulti : List F → String → α) (fT fC fL : List F) :
    (get_prect openOne openMulti fT fC fL = .error .notImplemented ↔
      fT = [] ∧ 2 ≤ fC.length ∧ fL ≠ []) ∧
    (∀ f1 f2 rest, fT = [] → fC = [f1] → fL = f2 :: rest →
      get_prect openOne openMulti fT fC fL =
        .ok (openOne f1 "PRECC" + openOne f2 "PRECL")) := by
  constructor
  · cases fT with
    | cons t ts =>
      cases ts with
      | nil => simp [get_prect]
      | cons t2 ts2 => simp [get_prect]
    | nil =>
      cases fC with
      | nil => simp [get_prect]
      | cons c1 cs =>
        cases fL with
        | nil => simp [get_prect]
        | cons l1 ls =>
          cases cs with
          | nil => simp [get_prect]
          | cons c2 cs2 =>
            simp only [get_prect, List.length_cons, true_and, ne_eq,
              List.cons_ne_nil, not_false_eq_true, and_true]
            constructor
            · intro _; omega
            · intro _; trivial
  · intro f1 f2 rest h1 h2 h3
    subst h1; subst h2; subst h3
    rfl

/-- C2 witness for the amended claim: one `PRECC` file (7) and two `PRECL`
files (8, 9) yield `ok (7 + 8) = ok 15`. -/
theorem C2_amended_witness :
    get_prect prect_open_one prect_open_multi [] [7] [8, 9] =
      Except.ok 15 := by
  have h := (C2_amended_thm prect_open_one prect_open_multi [] [7] [8, 9]).2
    7 8 [9] rfl rfl rfl
  simpa [prect_open_one] using h

/-! ## C3: unknown derived-variable names -/

/-- C3 counterexample: for the unknown name `"FOO"` the raised message is
`"We do not have a method for variable: FOO."`, which does not list the
registry's valid keys (none of them occurs in it). -/
theorem C3_counterexample :
    get_derive_func "FOO" =
      Except.error "We do not have a method for variable: FOO." ∧
    ¬ lists_registry_keys "We do not have a method for variable: FOO." := by
  constructor
  · rfl
  · intro h
    exact absurd (h "U300" (by decide)) (by decide)

/-- C3 amended: a variable name that is not a key of the derived-variable
registry fails with an Unsupported (`ValueError`) error whose message names
the requested variable — but does not list the registry's valid keys. -/
theorem C3_amended_thm (fld : String)
    (h : fld ∉ derive_registry.map Prod.fst) :
    get_derive_func fld =
      Except.error ("We do not have a method for variable: " ++ fld ++ ".") := by
  unfold get_derive_func
  rw [lookup_eq_none_of_not_mem _ _ h]

/-- C3 witness: `"FOO"` is not a registry key and the amended conclusion
holds for it. -/
theorem C3_amended_witness :
    ("FOO" ∉ derive_registry.map Prod.fst) ∧
    get_derive_func "FOO" =
      Except.error ("We do not have a method for variable: " ++ "FOO" ++ ".") :=
  ⟨by decide, C3_amended_thm "FOO" (by decide)⟩

/-! ## C1: the reference field is not reduced to the season mean -/

/-- C1: the orchestration loop reduces only the case field to the season's
temporal mean; the reference field keeps its 12-month time axis.  On a
one-point grid at latitude 0 with a reference whose value in month `m` is
`m` and a case field constantly 1, season DJF: the code's bias is computed
against the mean of all twelve months (`13/2`), giving `-1100/13 ≈ -84.6`,
while the claimed computation — both fields reduced to the DJF mean —
gives bias `-80`; the statistic triples differ. -/
theorem C1_unreduced_reference :
    seasons.lookup "DJF" = some [12, 1, 2] ∧
    (orchestrated_stats [12, 1, 2] caseF baseF lat₁).2.2 = -1100 / 13 ∧
    (spec_season_stats [12, 1, 2] caseF baseF lat₁).2.2 = -80 ∧
    orchestrated_stats [12, 1, 2] caseF baseF lat₁ ≠
      spec_season_stats [12, 1, 2] caseF baseF lat₁ := by
  have hcase : timeMean [12, 1, 2] caseF =
      fun _ : Fin 1 × Fin 1 => some (1 : ℝ) := by
    funext p
    simp [timeMean, caseF, List.filterMap_cons]
    norm_num
  have hbase : timeMean [12, 1, 2] baseF =
      fun _ : Fin 1 × Fin 1 => some (5 : ℝ) := by
    funext p
    simp [timeMean, baseF, List.filterMap_cons]
    norm_num
  have hconst : ∀ c : ℝ, wmean (fun _ : Fin 1 × Fin 1 => some c)
      (fun p : Fin 1 × Fin 1 => Real.cos (radians (lat₁ p.1))) = c := by
    intro c
    unfold wmean wsum sumWeights maskW fillZero lat₁ radians
    simp [Real.cos_zero, Finset.univ_unique]
  have hmr : wmean
      (fun tp : Fin 12 × (Fin 1 × Fin 1) => baseF (tp.1.val + 1) tp.2)
      (fun tp : Fin 12 × (Fin 1 × Fin 1) =>
        Real.cos (radians (lat₁ tp.2.1))) = 13 / 2 := by
    unfold wmean wsum sumWeights maskW fillZero baseF lat₁ radians
    simp [Real.cos_zero, Fintype.sum_prod_type, Finset.univ_unique,
      Fin.sum_univ_succ]
    norm_num
  have e1 : (orchestrated_stats [12, 1, 2] caseF baseF lat₁).2.2 =
      100 * ((wmean (timeMean [12, 1, 2] caseF)
          (fun p : Fin 1 × Fin 1 => Real.cos (radians (lat₁ p.1))) -
        wmean (fun tp : Fin 12 × (Fin 1 × Fin 1) => baseF (tp.1.val + 1) tp.2)
          (fun tp : Fin 12 × (Fin 1 × Fin 1) =>
            Real.cos (radians (lat₁ tp.2.1)))) /
        wmean (fun tp : Fin 12 × (Fin 1 × Fin 1) => baseF (tp.1.val + 1) tp.2)
          (fun tp : Fin 12 × (Fin 1 × Fin 1) =>
            Real.cos (radians (lat₁ tp.2.1)))) := rfl
  have e2 : (spec_season_stats [12, 1, 2] caseF baseF lat₁).2.2 =
      100 * ((wmean (timeMean [12, 1, 2] caseF)
          (fun p : Fin 1 × Fin 1 => Real.cos (radians (lat₁ p.1))) -
        wmean (timeMean [12, 1, 2] baseF)
          (fun p : Fin 1 × Fin 1 => Real.cos (radians (lat₁ p.1)))) /
        wmean (timeMean [12, 1, 2] baseF)
          (fun p : Fin 1 × Fin 1 => Real.cos (radians (lat₁ p.1)))) := rfl
  have hb1 : (orchestrated_stats [12, 1, 2] caseF baseF lat₁).2.2 =
      -1100 / 13 := by
    rw [e1, hcase, hconst, hmr]
    norm_num
  have hb2 : (spec_season_stats [12, 1, 2] caseF baseF lat₁).2.2 = -80 := by
    rw [e2, hcase, hbase, hconst, hconst]
    norm_num
  refine ⟨rfl, hb1, hb2, fun h => ?_⟩
  have hb := congrArg (fun t : ℝ × ℝ × ℝ => t.2.2) h
  simp only at hb
  rw [hb1, hb2] at hb
  norm_num at hb

/-! ## C7: column average of a constant field -/

/-- `np.trapz` of `c * x` against `x` telescopes to
`c * (last² − first²) / 2`, for any sample list. -/
theorem trapz_map_mul (c : ℚ) :
    ∀ xs : List ℚ, trapz (xs.map (fun a => c * a)) xs =
      c * ((xs.getLast?.getD 0) ^ 2 - (xs.head?.getD 0) ^ 2) / 2 := by
  intro xs
  induction xs with
  | nil => simp [trapz]
  | cons x1 tail ih =>
    cases tail with
    | nil => simp [trapz]
    | cons x2 rest =>
      have hlast : (x1 :: x2 :: rest).getLast? = (x2 :: rest).getLast? :=
        List.getLast?_cons_cons
      simp only [List.map_cons] at ih ⊢
      rw [trapz, hlast, ih]
      simp only [List.head?_cons, Option.getD_some]
      ring

/-- Multiplying a constant list cell-wise equals mapping the scalar product. -/
theorem zipWith_replicate_mul (c : ℚ) :
    ∀ xs : List ℚ,
      List.zipWith (fun a b => a * b) (List.replicate xs.length c) xs =
        xs.map (fun a => c * a) := by
  intro xs
  induction xs with
  | nil => rfl
  | cons x tail ih => simp [List.replicate, ih]

/-- C7 counterexample: with hybrid coefficients that make every level's
pressure zero (`acoef = bcoef = [0,0]`), the pressure integral is zero and
`vertical_average` of the constant field `[5,5]` is `0/0 = 0` (NaN in the
floating-point source), not the constant `5` — refuting the claim for
arbitrary surface pressure and hybrid coefficients. -/
theorem C7_counterexample :
    vertical_average [5, 5] 1000 [0, 0] [0, 0] 100000 = 0 ∧
      (0 : ℚ) ≠ 5 := by
  constructor
  · norm_num [vertical_average, pres_from_hybrid, trapz]
  · norm_num

/-- C7 amended: whenever the boundary pressures of the column differ (the
pressure integral `0.5 * (p_last² − p_first²)` is nonzero),
`vertical_average` of a field constant across all levels returns that
constant, for any surface pressure and hybrid coefficients. -/
theorem C7_amended_thm (c ps p0 : ℚ) (acoef bcoef : List ℚ)
    (hlen : bcoef.length = acoef.length)
    (hdp : ((pres_from_hybrid ps acoef bcoef p0).getLast?.getD 0) ^ 2 ≠
      ((pres_from_hybrid ps acoef bcoef p0).head?.getD 0) ^ 2) :
    vertical_average (List.replicate acoef.length c) ps acoef bcoef p0 = c := by
  have hp : (pres_from_hybrid ps acoef bcoef p0).length = acoef.length := by
    simp [pres_from_hybrid, List.length_zip, hlen]
  have hsub : ((pres_from_hybrid ps acoef bcoef p0).getLast?.getD 0) ^ 2 -
      ((pres_from_hybrid ps acoef bcoef p0).head?.getD 0) ^ 2 ≠ 0 :=
    sub_ne_zero_of_ne hdp
  show trapz
      (List.zipWith (fun a b => a * b) (List.replicate acoef.length c)
        (pres_from_hybrid ps acoef bcoef p0))
      (pres_from_hybrid ps acoef bcoef p0) /
    ((((pres_from_hybrid ps acoef bcoef p0).getLast?.getD 0) ^ 2 -
      ((pres_from_hybrid ps acoef bcoef p0).head?.getD 0) ^ 2) / 2) = c
  rw [← hp, zipWith_replicate_mul, trapz_map_mul]
  field_simp

/-- C7 witness: a two-level column with pressures `[1, 2]` and the constant
field `[5, 5]` averages to `5`. -/
theorem C7_amended_witness :
    (([0, 0] : List ℚ).length = ([1, 2] : List ℚ).length ∧
      ((pres_from_hybrid 0 [1, 2] [0, 0] 1).getLast?.getD 0) ^ 2 ≠
        ((pres_from_hybrid 0 [1, 2] [0, 0] 1).head?.getD 0) ^ 2) ∧
    vertical_average (List.replicate ([1, 2] : List ℚ).length 5) 0 [1, 2]
      [0, 0] 1 = 5 :=
  ⟨⟨rfl, by norm_num [pres_from_hybrid]⟩,
    C7_amended_thm 5 0 1 [1, 2] [0, 0] rfl (by norm_num [pres_from_hybrid])⟩

/-! ## C4: `get_var_at_plev` interpolates `U` -/

/-- C4: `get_var_at_plev` interpolates the field named `"U"` of the resolved
dataset — never the field named by its `variable` argument — to `100 * plev`,
dropping the degenerate vertical dimension; the `variable` argument only
selects which dataset is resolved, so two names resolving to the same
dataset give the same result. -/
theorem C4_interpolates_U {γ : Type} (resolve : String → String → γ)
    (interp : γ → γ → γ → γ → ℝ → γ) (squeeze_load : γ → γ)
    (varname : String) (plev : ℝ) :
    (get_var_at_plev resolve interp squeeze_load varname plev =
      squeeze_load (interp (resolve varname "U") (resolve varname "PS")
        (resolve varname "hyam") (resolve varname "hybm") (100 * plev))) ∧
    (∀ v₁ v₂ : String, resolve v₁ = resolve v₂ →
      get_var_at_plev resolve interp squeeze_load v₁ plev =
        get_var_at_plev resolve interp squeeze_load v₂ plev) := by
  constructor
  · rfl
  · intro v₁ v₂ h
    unfold get_var_at_plev
    rw [h]

/-- C4 witness: with a concrete resolver that sends every variable name to
the same dataset, the two hypotheses are discharged and the interpolation
target is the `"U"` field. -/
theorem C4_witness :
    ((fun _ _ : String => (0 : ℕ)) "T" = (fun _ _ : String => (0 : ℕ)) "Q") ∧
    get_var_at_plev (fun _ _ : String => (0 : ℕ))
        (fun _ _ _ _ _ => 7) (fun n => n + 1) "T" 300 =
      get_var_at_plev (fun _ _ : String => (0 : ℕ))
        (fun _ _ _ _ _ => 7) (fun n => n + 1) "Q" 300 :=
  ⟨rfl, (C4_interpolates_U (fun _ _ => 0) (fun _ _ _ _ _ => 7)
    (fun n => n + 1) "T" 300).2 "T" "Q" rfl⟩

end CamTaylorDiagram
